import Mathlib

/-!
Verification development for AN-015 (automating Quarch Power Studio).

The repository's Python sources (`QpsRecordingExample.py`, `QpsListDevices.py`)
drive an external stream-recording engine (channels, data points, timeline
markers, segment statistics) that lives inside the QPS application, not in the
repository itself.  The engine is therefore modelled here from the
specification's description of its data model and contracts; the repository's
own driver function `writeArbitaryData` is embedded directly from
`src/QpsRecordingExample.py`.
-/

namespace QPS

/-- Modelled from the spec: the `Channel` record of the data model — a named,
unit-tagged series into which data points are recorded.  The engine holding it
is in the external QPS application, not in this repository's sources. -/
structure Channel where
  name : String
  group : String
  unit : String
  autoRange : Bool
deriving DecidableEq

/-- Modelled from the spec: a `DataPoint` belongs to one channel by name and
carries a numeric value and an integer-millisecond timestamp.  The engine
holding it is external to this repository. -/
structure DataPoint where
  channelName : String
  value : ℚ
  timestamp : ℕ
deriving DecidableEq

/-- Modelled from the spec: a timeline marker (source operation
`addAnnotation`) with free-form text, an integer-millisecond timestamp and an
optional title used for segment naming.  The engine holding it is external to
this repository. -/
structure Annot where
  text : String
  timestamp : ℕ
  title : Option String
deriving DecidableEq

/-- Modelled from the spec: a derived half-open time interval
`[start, stop)`; `label` is the title of the marker opening the segment
(`none` for the leading segment). -/
structure Segment where
  start : ℕ
  stop : ℕ
  label : Option String
deriving DecidableEq

/-- Timestamp order on data points. -/
def DataPoint.byTime (p q : DataPoint) : Prop :=
  p.timestamp ≤ q.timestamp

instance : DecidableRel DataPoint.byTime :=
  fun p q => Nat.decLe p.timestamp q.timestamp

instance : IsTotal DataPoint DataPoint.byTime :=
  ⟨fun p q => Nat.le_total p.timestamp q.timestamp⟩

instance : IsTrans DataPoint DataPoint.byTime :=
  ⟨fun _ _ _ h h' => Nat.le_trans h h'⟩

/-- Timestamp order on timeline markers. -/
def Annot.byTime (a b : Annot) : Prop :=
  a.timestamp ≤ b.timestamp

instance : DecidableRel Annot.byTime :=
  fun a b => Nat.decLe a.timestamp b.timestamp

instance : IsTotal Annot Annot.byTime :=
  ⟨fun a b => Nat.le_total a.timestamp b.timestamp⟩

instance : IsTrans Annot Annot.byTime :=
  ⟨fun _ _ _ h h' => Nat.le_trans h h'⟩

/-- Modelled from the spec: segment boundaries derived from markers are sorted
by timestamp regardless of submission order, markers sharing a timestamp being
ordered by submission sequence (insertion sort is stable). -/
def sortAnnots (anns : List Annot) : List Annot :=
  List.insertionSort Annot.byTime anns

/-- Modelled from the spec: the segment list starting at boundary `startT`
(labelled `lab`) induced by an already sorted marker list, closed by the query
instant `now`. -/
def segmentsFrom (startT : ℕ) (lab : Option String) (now : ℕ) :
    List Annot → List Segment
  | [] => [⟨startT, now, lab⟩]
  | a :: rest => ⟨startT, a.timestamp, lab⟩ :: segmentsFrom a.timestamp a.title now rest

/-- Modelled from the spec: `segments(annotations, sessionStart, now)` of the
SegmentIndex component, which is external to this repository — consecutive
half-open intervals between sorted marker timestamps, plus the leading segment
from `sessionStart` and the trailing segment up to `now`. -/
def segments (anns : List Annot) (sessionStart now : ℕ) : List Segment :=
  segmentsFrom sessionStart none now (sortAnnots anns)

/-- Modelled from the spec: the Timeline component (external to this
repository) — an append-only store of data points and markers kept in
submission order; ordering is restored on query. -/
structure Timeline where
  points : List DataPoint
  annots : List Annot
deriving DecidableEq

/-- Membership of a data point in a channel's half-open query range. -/
def inRange (ch : String) (a b : ℕ) (p : DataPoint) : Bool :=
  p.channelName == ch && decide (a ≤ p.timestamp) && decide (p.timestamp < b)

/-- Modelled from the spec: `dataPointsInRange(channelName, [start, end))` of
the Timeline component (external to this repository) — the channel's points
whose timestamps fall in the range, in ascending timestamp order. -/
def dataPointsInRange (tl : Timeline) (ch : String) (a b : ℕ) : List DataPoint :=
  List.insertionSort DataPoint.byTime (tl.points.filter (inRange ch a b))

/-- Modelled from the spec: the `Stats` summary — `count`, and `min`, `max`,
`mean` carried as `Option` so that an empty segment reports a sentinel
distinguishable from every numeric value. -/
structure Stats where
  count : ℕ
  min : Option ℚ
  max : Option ℚ
  mean : Option ℚ
deriving DecidableEq

/-- Modelled from the spec: the aggregate of a list of values — empty input
yields `count = 0` with undefined `min`/`max`/`mean`. -/
def statsOf : List ℚ → Stats
  | [] => ⟨0, none, none, none⟩
  | v :: vs =>
    ⟨(v :: vs).length, some (vs.foldl Min.min v), some (vs.foldl Max.max v),
      some ((v :: vs).sum / ((v :: vs).length : ℚ))⟩

/-- Modelled from the spec: the StatsAggregator's per-channel, per-segment
summary (external to this repository) over the values whose timestamps fall in
the segment's interval. -/
def statsForSegment (tl : Timeline) (ch : String) (seg : Segment) : Stats :=
  statsOf ((dataPointsInRange tl ch seg.start seg.stop).map DataPoint.value)

/-- Modelled from the spec: the session lifecycle states. -/
inductive SessionState where
  | Idle
  | Recording
  | Stopped
deriving DecidableEq

/-- Modelled from the spec: the per-call error kinds. -/
inductive QpsError where
  | DuplicateChannel
  | UnknownChannel
  | SessionClosed
  | InvalidTimestamp
deriving DecidableEq

/-- Modelled from the spec: a StreamSession (external to this repository) owns
one Timeline, one channel registry and a lifecycle state. -/
structure Session where
  state : SessionState
  registry : List Channel
  timeline : Timeline
  sessionStart : ℕ
deriving DecidableEq

/-- Registry lookup by channel name. -/
def findChannel (s : Session) (name : String) : Option Channel :=
  s.registry.find? (fun c => c.name == name)

/-- Modelled from the spec: `createChannel(name, group, unit, autoRange)` —
fails with `DuplicateChannel` when the name exists, with `SessionClosed` after
the session stopped; channels may be pre-declared in `Idle`.  On error the
session is returned unchanged. -/
def createChannel (s : Session) (name group unit : String) (autoRange : Bool) :
    Option QpsError × Session :=
  if s.state = .Stopped then (some .SessionClosed, s)
  else if (findChannel s name).isSome then (some .DuplicateChannel, s)
  else (none, { s with registry := s.registry ++ [⟨name, group, unit, autoRange⟩] })

/-- Modelled from the spec: `addDataPoint(channelName, value, timestamp?)` —
valid only while `Recording`; an omitted timestamp defaults to the current
wall clock `now`; a timestamp before session start is rejected as
`InvalidTimestamp`; an unregistered channel is `UnknownChannel`.  On error the
session is returned unchanged. -/
def addDataPoint (s : Session) (now : ℕ) (ch : String) (v : ℚ) (ts : Option ℕ) :
    Option QpsError × Session :=
  if s.state ≠ .Recording then (some .SessionClosed, s)
  else if (findChannel s ch).isNone then (some .UnknownChannel, s)
  else
    let t := ts.getD now
    if t < s.sessionStart then (some .InvalidTimestamp, s)
    else (none, { s with timeline :=
      { s.timeline with points := s.timeline.points ++ [⟨ch, v, t⟩] } })

/-- Modelled from the spec: the marker-adding operation (source name
`addAnnotation`) — valid only while `Recording`; an omitted timestamp defaults
to `now`.  On error the session is returned unchanged. -/
def addAnnot (s : Session) (now : ℕ) (text : String) (ts : Option ℕ)
    (title : Option String) : Option QpsError × Session :=
  if s.state ≠ .Recording then (some .SessionClosed, s)
  else
    let t := ts.getD now
    if t < s.sessionStart then (some .InvalidTimestamp, s)
    else (none, { s with timeline :=
      { s.timeline with annots := s.timeline.annots ++ [⟨text, t, title⟩] } })

/-- Modelled from the spec: `stopSession()` — transitions to the terminal
`Stopped` state and freezes the Timeline. -/
def stopSession (s : Session) : Option QpsError × Session :=
  (none, { s with state := .Stopped })

/-- Modelled from the spec: `getStats(asOf?)` — for every registered channel,
the per-segment summaries over the segments induced by the recorded markers up
to the query instant. -/
def getStats (s : Session) (asOf : ℕ) : List (String × List Stats) :=
  s.registry.map (fun c =>
    (c.name, (segments s.timeline.annots s.sessionStart asOf).map
      (fun seg => statsForSegment s.timeline c.name seg)))

/-- The public mutating operations of the session, as submitted calls. -/
inductive Op where
  | mkChannel (name group unit : String) (autoRange : Bool)
  | mkDataPoint (ch : String) (v : ℚ) (ts : Option ℕ)
  | mkAnnot (text : String) (ts : Option ℕ) (title : Option String)
  | stop
deriving DecidableEq

/-- Dispatch one submitted call against the session. -/
def applyOp (now : ℕ) (s : Session) : Op → Option QpsError × Session
  | .mkChannel n g u r => createChannel s n g u r
  | .mkDataPoint ch v ts => addDataPoint s now ch v ts
  | .mkAnnot txt ts ttl => addAnnot s now txt ts ttl
  | .stop => stopSession s

/-- Run a list of submitted calls in order, keeping the per-call
accept-or-reject discipline. -/
def runOps (now : ℕ) (s : Session) : List Op → Session
  | [] => s
  | op :: ops => runOps now (applyOp now s op).2 ops

/-- A fresh recording session with an empty registry and timeline. -/
def initialSession (start : ℕ) : Session :=
  ⟨.Recording, [], ⟨[], []⟩, start⟩

/-- Accumulator pass of decimal-digit parsing: consumes digits left to right,
failing on any non-digit character. -/
def readNatAux : List Char → ℕ → Option ℕ
  | [], acc => some acc
  | c :: cs, acc => if c.isDigit then readNatAux cs (acc * 10 + (c.toNat - 48)) else none

/-- Parse a non-empty all-digit character list as a natural number. -/
def readNat (cs : List Char) : Option ℕ :=
  if cs.isEmpty then none else readNatAux cs 0

/-- Split a character list at the first `'.'`, returning the part before it
and, when a dot is present, the part after it. -/
def splitAtDot : List Char → List Char × Option (List Char)
  | [] => ([], none)
  | c :: cs =>
    if c = '.' then ([], some cs)
    else
      let r := splitAtDot cs
      (c :: r.1, r.2)

/-- Parse a decimal value string into an exact fraction
`(numerator, power-of-ten denominator)` — `"18"` gives `(18, 1)`, `"18.8"`
gives `(188, 10)`. -/
def parseDecFrac (s : String) : Option (ℕ × ℕ) :=
  match splitAtDot s.data with
  | (w, none) => (readNat w).map (fun n => (n, 1))
  | (w, some f) =>
    match readNat w, readNat f with
    | some n, some m => some (n * 10 ^ f.length + m, 10 ^ f.length)
    | _, _ => none

/-- Fuel-bounded base-`b` logarithm on naturals (fuel `n` suffices). -/
def natLogAux (b : ℕ) : ℕ → ℕ → ℕ
  | 0, _ => 0
  | fuel + 1, n => if n < b then 0 else natLogAux b fuel (n / b) + 1

/-- Greatest `k` with `b ^ k ≤ n` (and `0` for `n = 0`). -/
def natLog (b n : ℕ) : ℕ :=
  natLogAux b n n

/-- Round `a / b` to the nearest integer, ties to even (the IEEE-754 default
rounding used by Python's float arithmetic and float-to-decimal conversion). -/
def rheDiv (a b : ℕ) : ℕ :=
  let q := a / b
  let r := a % b
  if 2 * r < b then q
  else if b < 2 * r then q + 1
  else if q % 2 = 0 then q else q + 1

/-- Decide `2 ^ e ≤ n / d` for a positive fraction and an integer exponent. -/
def pow2Le (e : ℤ) (n d : ℕ) : Bool :=
  if 0 ≤ e then decide (d * 2 ^ e.toNat ≤ n) else decide (d ≤ n * 2 ^ (-e).toNat)

/-- Greatest `e : ℤ` with `2 ^ e ≤ n / d`, for positive `n`, `d`. -/
def floorLog2 (n d : ℕ) : ℤ :=
  let c : ℤ := (natLog 2 n : ℤ) - (natLog 2 d : ℤ)
  if pow2Le c n d then c else c - 1

/-- Decide `10 ^ e ≤ n / d` for a positive fraction and an integer exponent. -/
def pow10Le (e : ℤ) (n d : ℕ) : Bool :=
  if 0 ≤ e then decide (d * 10 ^ e.toNat ≤ n) else decide (d ≤ n * 10 ^ (-e).toNat)

/-- Greatest `e : ℤ` with `10 ^ e ≤ n / d`, for positive `n`, `d`. -/
def floorLog10 (n d : ℕ) : ℤ :=
  let c : ℤ := (natLog 10 n : ℤ) - (natLog 10 d : ℤ)
  if pow10Le c n d then c else c - 1

/-- Round the positive fraction `n / d` to the nearest IEEE-754 binary64
value (ties to even), represented as a normalised mantissa/exponent pair
`(m, e)` with `2 ^ 52 ≤ m < 2 ^ 53` and value `m · 2 ^ (e - 52)` — the
rounding Python applies to every float literal and arithmetic result. -/
def roundF64 (n d : ℕ) : ℕ × ℤ :=
  let e := floorLog2 n d
  let s : ℤ := 52 - e
  let m := if 0 ≤ s then rheDiv (n * 2 ^ s.toNat) d else rheDiv n (d * 2 ^ (-s).toNat)
  if m = 2 ^ 53 then (2 ^ 52, e + 1) else (m, e)

/-- The exact value of a binary64 pair as a positive fraction. -/
def f64Frac (f : ℕ × ℤ) : ℕ × ℕ :=
  if 0 ≤ f.2 - 52 then (f.1 * 2 ^ (f.2 - 52).toNat, 1) else (f.1, 2 ^ (52 - f.2).toNat)

/-- IEEE-754 binary64 addition: the exact sum, rounded to nearest, ties to
even — Python's `float + float`. -/
def fpAdd (x y : ℕ × ℤ) : ℕ × ℤ :=
  let a := f64Frac x
  let b := f64Frac y
  roundF64 (a.1 * b.2 + b.1 * a.2) (a.2 * b.2)

/-- The correctly rounded `p`-significant-digit decimal of the positive
fraction `n / d`, as a decimal mantissa and power-of-ten exponent. -/
def sigRound (n d : ℕ) (p : ℕ) : ℕ × ℤ :=
  let t := floorLog10 n d
  let s : ℤ := (p : ℤ) - 1 - t
  let md := if 0 ≤ s then rheDiv (n * 10 ^ s.toNat) d else rheDiv n (d * 10 ^ (-s).toNat)
  if md = 10 ^ p then (10 ^ (p - 1), t + 2 - p) else (md, t + 1 - p)

/-- The decimal `md · 10 ^ k` as a fraction. -/
def decFrac (md : ℕ) (k : ℤ) : ℕ × ℕ :=
  if 0 ≤ k then (md * 10 ^ k.toNat, 1) else (md, 10 ^ (-k).toNat)

/-- Positional rendering of the decimal `md · 10 ^ k`, as Python formats a
float whose magnitude is between `1e-4` and `1e16`: an integral value gets a
trailing `".0"`, otherwise the fractional digits are zero-padded to length
`-k`. -/
def fixedFormat (md : ℕ) (k : ℤ) : String :=
  if 0 ≤ k then toString (md * 10 ^ k.toNat) ++ ".0"
  else
    let f := 10 ^ (-k).toNat
    let ip := md / f
    let fp := md % f
    let fs := toString fp
    toString ip ++ "." ++ String.mk (List.replicate ((-k).toNat - fs.length) '0') ++ fs

/-- Search, from `p` significant digits upward, for the first correctly
rounded decimal of `n / d` that parses back (by binary64 rounding) to exactly
the float `f`; 17 digits always round-trip, so the fuel is never exhausted in
range. -/
def shortestFrom (f : ℕ × ℤ) (n d : ℕ) (p : ℕ) : ℕ → String
  | 0 =>
    let r := sigRound n d 17
    fixedFormat r.1 r.2
  | fuel + 1 =>
    let r := sigRound n d p
    let df := decFrac r.1 r.2
    if roundF64 df.1 df.2 = f then fixedFormat r.1 r.2
    else shortestFrom f n d (p + 1) fuel

/-- Python's `str`/`repr` of a positive binary64 float: the shortest
correctly rounded decimal string that round-trips to the same float. -/
def pyRepr (f : ℕ × ℤ) : String :=
  let fr := f64Frac f
  shortestFrom f fr.1 fr.2 1 17

/-- A Python number as the driver holds it: `driveTemp` starts as the int
`18` and becomes a binary64 float after the first `+ 0.8`. -/
inductive PyNum where
  | intVal (n : ℕ)
  | floatVal (f : ℕ × ℤ)
deriving DecidableEq

/-- Python's `str` of the running value: integers print bare, floats print
their shortest round-trip repr. -/
def pyStr : PyNum → String
  | .intVal n => toString n
  | .floatVal f => pyRepr f

/-- The binary64 value a Python number denotes (ints convert exactly in this
range). -/
def pyF64 : PyNum → ℕ × ℤ
  | .intVal n => roundF64 n 1
  | .floatVal f => f

/-- Python's `driveTemp + 0.8`: the int promotes exactly to binary64, the
literal `0.8` is the binary64 nearest `4/5`, and the sum is rounded to
nearest, ties to even. -/
def pyAdd08 : PyNum → PyNum
  | .intVal n => .floatVal (fpAdd (roundF64 n 1) (roundF64 4 5))
  | .floatVal f => .floatVal (fpAdd f (roundF64 4 5))

/-- The running `driveTemp` of `writeArbitaryData` before its `i`-th
`addDataPoint` call: `18`, then `i` accumulated additions of `0.8`. -/
def driveTempAt : ℕ → PyNum
  | 0 => .intVal 18
  | n + 1 => pyAdd08 (driveTempAt n)

/-- One `addDataPoint` call as issued by the repository's driver code: the
channel name, the group name passed alongside it on the same call, the value
as the string the script builds, and the optional explicit timestamp. -/
structure AddDataPointCall where
  channelName : String
  groupName : String
  valueStr : String
  timestamp : Option ℕ
deriving DecidableEq

/-- The `for x in range(0, 10)` loop of `writeArbitaryData` in
`src/QpsRecordingExample.py`: each iteration issues
`addDataPoint(channelName, groupName, str(driveTemp))` with no timestamp and
then executes `driveTemp = driveTemp + 0.8` in IEEE-754 binary64 arithmetic.
Returns the issued calls and the final `driveTemp`. -/
def writeLoop (channelName groupName : String) :
    ℕ → PyNum → List AddDataPointCall × PyNum
  | 0, driveTemp => ([], driveTemp)
  | n + 1, driveTemp =>
    let r := writeLoop channelName groupName n (pyAdd08 driveTemp)
    (⟨channelName, groupName, pyStr driveTemp, none⟩ :: r.1, r.2)

/-- Embedded from `src/QpsRecordingExample.py`, function `writeArbitaryData`:
ten points at implicit live timestamps starting from the int `driveTemp = 18`,
then one final point carrying the explicit `last_reading_time`. -/
def writeArbitaryData (channelName groupName : String) (lastReadingTime : ℕ) :
    List AddDataPointCall :=
  let r := writeLoop channelName groupName 10 (.intVal 18)
  r.1 ++ [⟨channelName, groupName, pyStr r.2, some lastReadingTime⟩]

/-- Modelled from the spec: the statistics scenario — create channel `"T1"`
(group `"Temp"`, unit `"C"`), add ten points at `t0 + 0, 1000, …, 9000` ms
(here `t0 = 0`) with values `18.0, 18.8, …, 25.2`, and add one marker at
`t0 + 5000`. -/
def scenarioOps : List Op :=
  Op.mkChannel "T1" "Temp" "C" false ::
    (List.range 10).map (fun i : ℕ => Op.mkDataPoint "T1" (18 + (i : ℚ) * 4 / 5) (some (1000 * i))) ++
    [Op.mkAnnot "boundary" (some 5000) none]

/-- The session state after running the statistics scenario from a fresh
recording session started at `0`, queried at wall clock `10000`. -/
def scenarioSession : Session :=
  runOps 10000 (initialSession 0) scenarioOps

end QPS

namespace QPS

theorem segmentsFrom_length (anns : List Annot) (startT : ℕ) (lab : Option String)
    (now : ℕ) : (segmentsFrom startT lab now anns).length = anns.length + 1 := by
  induction anns generalizing startT lab with
  | nil => rfl
  | cons a rest ih => simp [segmentsFrom, ih]

theorem segmentsFrom_le_start (anns : List Annot) (startT : ℕ) (lab : Option String)
    (now : ℕ) (hsorted : anns.Sorted Annot.byTime)
    (hlo : ∀ a ∈ anns, startT ≤ a.timestamp) :
    ∀ seg ∈ segmentsFrom startT lab now anns, startT ≤ seg.start := by
  induction anns generalizing startT lab with
  | nil =>
    intro seg hseg
    simp only [segmentsFrom, List.mem_singleton] at hseg
    subst hseg
    exact Nat.le_refl _
  | cons a rest ih =>
    intro seg hseg
    rw [segmentsFrom] at hseg
    rcases List.mem_cons.mp hseg with h | h
    · subst h
      exact Nat.le_refl _
    · have hsa : startT ≤ a.timestamp := hlo a (List.mem_cons_self a rest)
      have hrest := (List.sorted_cons.mp hsorted)
      exact Nat.le_trans hsa
        (ih a.timestamp a.title hrest.2 (fun b hb => hrest.1 b hb) seg h)

theorem segmentsFrom_stop_le (anns : List Annot) (startT : ℕ) (lab : Option String)
    (now : ℕ) (hhi : ∀ a ∈ anns, a.timestamp ≤ now) :
    ∀ seg ∈ segmentsFrom startT lab now anns, seg.stop ≤ now := by
  induction anns generalizing startT lab with
  | nil =>
    intro seg hseg
    simp only [segmentsFrom, List.mem_singleton] at hseg
    subst hseg
    exact Nat.le_refl _
  | cons a rest ih =>
    intro seg hseg
    rw [segmentsFrom] at hseg
    rcases List.mem_cons.mp hseg with h | h
    · subst h
      exact hhi a (List.mem_cons_self a rest)
    · exact ih a.timestamp a.title (fun b hb => hhi b (List.mem_cons_of_mem a hb)) seg h

theorem segmentsFrom_start_le_stop (anns : List Annot) (startT : ℕ) (lab : Option String)
    (now : ℕ) (hsorted : anns.Sorted Annot.byTime)
    (hlo : ∀ a ∈ anns, startT ≤ a.timestamp) (hhi : ∀ a ∈ anns, a.timestamp ≤ now)
    (hsn : startT ≤ now) :
    ∀ seg ∈ segmentsFrom startT lab now anns, seg.start ≤ seg.stop := by
  induction anns generalizing startT lab with
  | nil =>
    intro seg hseg
    simp only [segmentsFrom, List.mem_singleton] at hseg
    subst hseg
    exact hsn
  | cons a rest ih =>
    intro seg hseg
    rw [segmentsFrom] at hseg
    rcases List.mem_cons.mp hseg with h | h
    · subst h
      exact hlo a (List.mem_cons_self a rest)
    · have hrest := List.sorted_cons.mp hsorted
      exact ih a.timestamp a.title hrest.2 (fun b hb => hrest.1 b hb)
        (fun b hb => hhi b (List.mem_cons_of_mem a hb))
        (hhi a (List.mem_cons_self a rest)) seg h

theorem segmentsFrom_countP_one (anns : List Annot) (startT : ℕ) (lab : Option String)
    (now : ℕ) (hsorted : anns.Sorted Annot.byTime)
    (hlo : ∀ a ∈ anns, startT ≤ a.timestamp) (hhi : ∀ a ∈ anns, a.timestamp ≤ now)
    (t : ℕ) (ht1 : startT ≤ t) (ht2 : t < now) :
    (segmentsFrom startT lab now anns).countP
      (fun seg => decide (seg.start ≤ t ∧ t < seg.stop)) = 1 := by
  induction anns generalizing startT lab with
  | nil =>
    simp [segmentsFrom, List.countP_cons, ht1, ht2]
  | cons a rest ih =>
    have hrest := List.sorted_cons.mp hsorted
    rw [segmentsFrom, List.countP_cons]
    by_cases hc : t < a.timestamp
    · have h0 : (segmentsFrom a.timestamp a.title now rest).countP
          (fun seg => decide (seg.start ≤ t ∧ t < seg.stop)) = 0 := by
        rw [List.countP_eq_zero]
        intro seg hseg
        have := segmentsFrom_le_start rest a.timestamp a.title now hrest.2
          (fun b hb => hrest.1 b hb) seg hseg
        simp only [decide_eq_true_eq, not_and]
        intro hst
        omega
      rw [h0]
      simp [ht1, hc]
    · have h1 := ih a.timestamp a.title hrest.2 (fun b hb => hrest.1 b hb)
        (fun b hb => hhi b (List.mem_cons_of_mem a hb)) (Nat.le_of_not_lt hc)
      rw [h1]
      simp [hc]

theorem applyOp_stopped (now : ℕ) (s : Session) (op : Op) (h : s.state = .Stopped) :
    applyOp now s op = ((applyOp now s op).1, s) := by
  cases op with
  | mkChannel n g u r => simp [applyOp, createChannel, h]
  | mkDataPoint ch v ts => simp [applyOp, addDataPoint, h]
  | mkAnnot txt ts ttl => simp [applyOp, addAnnot, h]
  | stop =>
    cases s
    simp only [Session.mk.injEq] at h ⊢
    simp [applyOp, stopSession, h]

theorem applyOp_err (now : ℕ) (s : Session) (op : Op) (e : QpsError)
    (h : (applyOp now s op).1 = some e) : (applyOp now s op).2 = s := by
  cases op with
  | mkChannel n g u r =>
    by_cases h1 : s.state = .Stopped
    · simp [applyOp, createChannel, h1]
    · by_cases h2 : (findChannel s n).isSome
      · simp [applyOp, createChannel, h1, h2]
      · simp [applyOp, createChannel, h1, h2] at h
  | mkDataPoint ch v ts =>
    by_cases h1 : s.state = .Recording
    · by_cases h2 : (findChannel s ch).isNone
      · by_cases h3 : ts.getD now < s.sessionStart
        · simp [applyOp, addDataPoint, h1, h2, h3]
        · simp [applyOp, addDataPoint, h1, h2, h3]
      · by_cases h3 : ts.getD now < s.sessionStart
        · simp [applyOp, addDataPoint, h1, h2, h3]
        · simp [applyOp, addDataPoint, h1, h2, h3] at h
    · simp [applyOp, addDataPoint, h1]
  | mkAnnot txt ts ttl =>
    by_cases h1 : s.state = .Recording
    · by_cases h3 : ts.getD now < s.sessionStart
      · simp [applyOp, addAnnot, h1, h3]
      · simp [applyOp, addAnnot, h1, h3] at h
    · simp [applyOp, addAnnot, h1]
  | stop => simp [applyOp, stopSession] at h

theorem addDataPoint_registry (s : Session) (now : ℕ) (ch : String) (v : ℚ)
    (ts : Option ℕ) : ((addDataPoint s now ch v ts).2).registry = s.registry := by
  rw [addDataPoint]
  split
  · rfl
  · split
    · rfl
    · dsimp only
      split
      · rfl
      · rfl

theorem addAnnot_registry (s : Session) (now : ℕ) (txt : String) (ts : Option ℕ)
    (ttl : Option String) : ((addAnnot s now txt ts ttl).2).registry = s.registry := by
  rw [addAnnot]
  split
  · rfl
  · dsimp only
    split
    · rfl
    · rfl

theorem findChannel_applyOp (now : ℕ) (s : Session) (op : Op) (n : String)
    (c : Channel) (h : findChannel s n = some c) :
    findChannel (applyOp now s op).2 n = some c := by
  cases op with
  | mkChannel m g u r =>
    by_cases h1 : s.state = .Stopped
    · simpa [applyOp, createChannel, h1] using h
    · by_cases h2 : (findChannel s m).isSome
      · simpa [applyOp, createChannel, h1, h2] using h
      · simp only [applyOp, createChannel, h1, if_false, h2, ite_false]
        simp only [findChannel] at h ⊢
        simp [List.find?_append, h]
  | mkDataPoint ch v ts =>
    have hr := addDataPoint_registry s now ch v ts
    simp only [applyOp, findChannel] at h ⊢
    rw [hr]
    exact h
  | mkAnnot txt ts ttl =>
    have hr := addAnnot_registry s now txt ts ttl
    simp only [applyOp, findChannel] at h ⊢
    rw [hr]
    exact h
  | stop => simpa [applyOp, stopSession, findChannel] using h

end QPS

namespace QPS

/-- C1: for annotations whose timestamps all lie within `[sessionStart, now]`
(the amendment the counterexample below forces), `segments` returns exactly
`len(annotations) + 1` segments, each with `start ≤ stop`, all contained in
`[sessionStart, now)`, and every instant of `[sessionStart, now)` lies in
exactly one returned segment (no gaps, no overlaps); with zero annotations the
result is the single segment `[sessionStart, now)`. -/
theorem segments_cover (anns : List Annot) (sessionStart now : ℕ)
    (hsn : sessionStart ≤ now)
    (hin : ∀ a ∈ anns, sessionStart ≤ a.timestamp ∧ a.timestamp ≤ now) :
    (segments anns sessionStart now).length = anns.length + 1 ∧
    (∀ seg ∈ segments anns sessionStart now, seg.start ≤ seg.stop) ∧
    (∀ seg ∈ segments anns sessionStart now,
      sessionStart ≤ seg.start ∧ seg.stop ≤ now) ∧
    (∀ t : ℕ, sessionStart ≤ t → t < now →
      (segments anns sessionStart now).countP
        (fun seg => decide (seg.start ≤ t ∧ t < seg.stop)) = 1) ∧
    (anns = [] → segments anns sessionStart now = [⟨sessionStart, now, none⟩]) := by
  have hsorted : (sortAnnots anns).Sorted Annot.byTime :=
    List.sorted_insertionSort Annot.byTime anns
  have hmem : ∀ a ∈ sortAnnots anns, sessionStart ≤ a.timestamp ∧ a.timestamp ≤ now := by
    intro a ha
    rw [sortAnnots] at ha
    simp only [List.mem_insertionSort] at ha
    exact hin a ha
  unfold segments
  refine ⟨?_, ?_, ?_, ?_, ?_⟩
  · rw [segmentsFrom_length, sortAnnots, List.length_insertionSort]
  · exact segmentsFrom_start_le_stop _ _ _ _ hsorted (fun a ha => (hmem a ha).1)
      (fun a ha => (hmem a ha).2) hsn
  · intro seg hseg
    exact ⟨segmentsFrom_le_start _ _ _ _ hsorted (fun a ha => (hmem a ha).1) seg hseg,
      segmentsFrom_stop_le _ _ _ _ (fun a ha => (hmem a ha).2) seg hseg⟩
  · intro t ht1 ht2
    exact segmentsFrom_countP_one _ _ _ _ hsorted (fun a ha => (hmem a ha).1)
      (fun a ha => (hmem a ha).2) t ht1 ht2
  · intro h
    subst h
    rfl

/-- C1 counterexample: with `sessionStart = 0 ≤ now = 5` and a single
annotation stamped at `10` (outside `[sessionStart, now)`), the trailing
segment is `[10, 5)`, violating `start ≤ end`, so the claim's unconditional
partition property fails as stated. -/
theorem segments_cover_cex :
    (0 : ℕ) ≤ 5 ∧
      ¬ (∀ seg ∈ segments [⟨"late", 10, none⟩] 0 5, seg.start ≤ seg.stop) := by
  constructor
  · decide
  · decide

/-- C1 witness: the amended theorem applied to one annotation stamped at `3`
inside `[0, 5]` yields exactly two segments. -/
theorem segments_cover_witness :
    (segments [⟨"mid", 3, some "m"⟩] 0 5).length = 2 := by
  have h := segments_cover [⟨"mid", 3, some "m"⟩] 0 5 (by decide) (by decide)
  simpa using h.1

/-- C2: for every timeline (hence for `addDataPoint` calls submitted in any
timestamp order), `dataPointsInRange` returns a list sorted ascending by
timestamp that is a permutation of exactly the channel's points whose
timestamps fall in the half-open query range, and is empty when the channel
has no point in range; being a pure function of the timeline, every call
yields the same fresh finite list. -/
theorem dataPointsInRange_sorted (tl : Timeline) (ch : String) (a b : ℕ) :
    (dataPointsInRange tl ch a b).Sorted DataPoint.byTime ∧
    (dataPointsInRange tl ch a b).Perm (tl.points.filter (inRange ch a b)) ∧
    ((∀ p ∈ tl.points, inRange ch a b p = false) →
      dataPointsInRange tl ch a b = []) := by
  unfold dataPointsInRange
  refine ⟨List.sorted_insertionSort _ _, List.perm_insertionSort _ _, ?_⟩
  intro h
  have hf : tl.points.filter (inRange ch a b) = [] :=
    List.filter_eq_nil_iff.mpr (fun p hp => by simp [h p hp])
  rw [hf]
  rfl

/-- C2 witness: the theorem applied to a one-point timeline — querying a
channel with no points in the range returns the empty list. -/
theorem dataPointsInRange_sorted_witness :
    dataPointsInRange ⟨[⟨"T1", 1, 7⟩], []⟩ "T2" 0 10 = [] :=
  (dataPointsInRange_sorted ⟨[⟨"T1", 1, 7⟩], []⟩ "T2" 0 10).2.2 (by decide)

/-- C4: two annotations `a` then `b` submitted with an identical timestamp
keep their submission order among the segment boundaries: the boundary of `a`
opens the middle segment (labelled by `a`'s title) before the segment opened
by `b`, and that middle segment is zero-width yet reported in the output, not
collapsed. -/
theorem simultaneous_annots_tiebreak (a b : Annot) (s n : ℕ)
    (h : a.timestamp = b.timestamp) :
    segments [a, b] s n =
      [⟨s, a.timestamp, none⟩, ⟨a.timestamp, b.timestamp, a.title⟩,
        ⟨b.timestamp, n, b.title⟩] ∧
    (segments [a, b] s n).length = 3 ∧
    (⟨a.timestamp, b.timestamp, a.title⟩ : Segment).start =
      (⟨a.timestamp, b.timestamp, a.title⟩ : Segment).stop := by
  have hs : sortAnnots [a, b] = [a, b] := by
    simp [sortAnnots, List.insertionSort, List.orderedInsert, Annot.byTime, h]
  refine ⟨?_, ?_, h⟩
  · rw [segments, hs]
    rfl
  · rw [segments, hs]
    rfl

/-- C4 witness: the theorem applied to two concrete annotations both stamped
at `7` — the zero-width segment labelled `"A"` precedes the one labelled
`"B"`. -/
theorem simultaneous_annots_tiebreak_witness :
    segments [⟨"first", 7, some "A"⟩, ⟨"second", 7, some "B"⟩] 0 9 =
      [⟨0, 7, none⟩, ⟨7, 7, some "A"⟩, ⟨7, 9, some "B"⟩] :=
  (simultaneous_annots_tiebreak ⟨"first", 7, some "A"⟩ ⟨"second", 7, some "B"⟩
    0 9 rfl).1

end QPS

namespace QPS

/-- C3 counterexample: in the statistics scenario (ten points at
`0, 1000, …, 9000` ms with values `18.0, 18.8, …, 25.2` and one annotation at
`5000`), the claim expects the two `T1` segments to hold 6 and 4 points; the
half-open segments actually hold 5 points each, because the point stamped
exactly at the annotation time belongs to the second segment. -/
theorem scenario_stats_cex :
    ¬ ((getStats scenarioSession 10000).map (fun pr => pr.2.map Stats.count) =
      [[6, 4]]) := by
  decide

/-- C3 (amended): running the scenario — channel `"T1"` (group `"Temp"`, unit
`"C"`), ten points at `0, 1000, …, 9000` ms with values `18.0, 18.8, …, 25.2`,
one annotation at `5000` — `getStats` yields exactly two segments for `T1`:
the first holding the 5 points with indices 0–4 (mean `19.6`), the second the
5 points with indices 5–9 (mean `23.6`). -/
theorem scenario_stats :
    getStats scenarioSession 10000 =
      [("T1", [⟨5, some 18, some (106/5), some (98/5)⟩,
               ⟨5, some 22, some (126/5), some (118/5)⟩])] := by
  simp +decide [scenarioSession, scenarioOps, getStats, runOps, applyOp,
    createChannel, addDataPoint, addAnnot, findChannel, initialSession,
    List.range_succ, segments, sortAnnots, segmentsFrom, statsForSegment,
    dataPointsInRange, inRange, statsOf, List.filter, List.insertionSort,
    List.orderedInsert, DataPoint.byTime, Annot.byTime]
  norm_num [min_def, max_def]

/-- C5: a channel/segment pair in which no data point falls yields the Stats
record `⟨0, none, none, none⟩`: `count = 0` and `min`, `max`, `mean` equal to
the sentinel `none`, which differs from `some q` for every numeric `q` (so it
is never mistakable for the number 0); in particular a registered channel
that never received a data point reports that record in every segment of
`getStats`. -/
theorem empty_segment_stats (s : Session) (asOf : ℕ) (ch : String)
    (h : ∀ p ∈ s.timeline.points, p.channelName ≠ ch) :
    (∀ tl : Timeline, ∀ seg : Segment,
      (∀ p ∈ tl.points,
        ¬(p.channelName = ch ∧ seg.start ≤ p.timestamp ∧ p.timestamp < seg.stop)) →
      statsForSegment tl ch seg = ⟨0, none, none, none⟩) ∧
    (∀ pr ∈ getStats s asOf, pr.1 = ch → ∀ st ∈ pr.2, st = ⟨0, none, none, none⟩) ∧
    (∀ q : ℚ, (⟨0, none, none, none⟩ : Stats).min ≠ some q ∧
      (⟨0, none, none, none⟩ : Stats).max ≠ some q ∧
      (⟨0, none, none, none⟩ : Stats).mean ≠ some q) := by
  have key : ∀ tl : Timeline, ∀ seg : Segment,
      (∀ p ∈ tl.points,
        ¬(p.channelName = ch ∧ seg.start ≤ p.timestamp ∧ p.timestamp < seg.stop)) →
      statsForSegment tl ch seg = ⟨0, none, none, none⟩ := by
    intro tl seg hnone
    have hf : tl.points.filter (inRange ch seg.start seg.stop) = [] := by
      rw [List.filter_eq_nil_iff]
      intro p hp
      have hn := hnone p hp
      simp only [inRange, Bool.and_eq_true, beq_iff_eq, decide_eq_true_eq]
      tauto
    rw [statsForSegment, dataPointsInRange, hf]
    rfl
  refine ⟨key, ?_, ?_⟩
  · intro pr hpr hch st hst
    rw [getStats] at hpr
    rcases List.mem_map.mp hpr with ⟨c, hc, rfl⟩
    dsimp at hch hst
    rcases List.mem_map.mp hst with ⟨seg, hseg, rfl⟩
    subst hch
    exact key s.timeline seg (fun p hp hcontra => h p hp hcontra.1)
  · intro q
    refine ⟨?_, ?_, ?_⟩ <;> simp

/-- C5 witness: the theorem applied to a fresh session and an empty timeline —
the Stats record of an empty segment is the sentinel record. -/
theorem empty_segment_stats_witness :
    statsForSegment ⟨[], []⟩ "T1" ⟨0, 5, none⟩ = ⟨0, none, none, none⟩ :=
  (empty_segment_stats (initialSession 0) 5 "T1" (by simp [initialSession])).1
    ⟨[], []⟩ ⟨0, 5, none⟩ (by simp)

/-- C6: once the session is `Stopped`, `addDataPoint` and the marker-adding
operation fail with `SessionClosed` and return the session unchanged, no
sequence of submitted calls changes the session at all (in particular it
never returns to `Recording`), and `getStats` still answers; stopping itself
preserves registry and timeline, so those answers are computed over exactly
the data recorded before the stop. -/
theorem stopped_session_frozen (s : Session) (now asOf : ℕ)
    (h : s.state = .Stopped) :
    (∀ ch v ts, addDataPoint s now ch v ts = (some .SessionClosed, s)) ∧
    (∀ txt ts ttl, addAnnot s now txt ts ttl = (some .SessionClosed, s)) ∧
    (∀ ops, runOps now s ops = s) ∧
    (∀ ops, (runOps now s ops).state ≠ .Recording) ∧
    (∀ s₀ : Session, getStats (stopSession s₀).2 asOf = getStats s₀ asOf) := by
  have hrun : ∀ ops, runOps now s ops = s := by
    intro ops
    induction ops with
    | nil => rfl
    | cons op rest ih =>
      have h2 : (applyOp now s op).2 = s :=
        congrArg Prod.snd (applyOp_stopped now s op h)
      show runOps now (applyOp now s op).2 rest = s
      rw [h2]
      exact ih
  refine ⟨?_, ?_, hrun, ?_, ?_⟩
  · intro ch v ts
    simp [addDataPoint, h]
  · intro txt ts ttl
    simp [addAnnot, h]
  · intro ops
    rw [hrun ops, h]
    simp
  · intro s₀
    rfl

/-- C6 witness: the theorem applied to a concrete stopped session — adding a
data point fails with `SessionClosed` and leaves the session unchanged. -/
theorem stopped_session_frozen_witness :
    addDataPoint ⟨.Stopped, [], ⟨[], []⟩, 0⟩ 3 "T1" 1 none =
      (some .SessionClosed, ⟨.Stopped, [], ⟨[], []⟩, 0⟩) :=
  (stopped_session_frozen ⟨.Stopped, [], ⟨[], []⟩, 0⟩ 3 0 rfl).1 "T1" 1 none

end QPS

namespace QPS

/-- C7: failing operations are atomic — whenever a submitted call returns an
error (`DuplicateChannel`, `UnknownChannel`, `SessionClosed` or
`InvalidTimestamp`), the session, and with it all previously recorded state,
is returned unchanged; in particular, while recording, `addDataPoint` on an
unregistered channel name fails with `UnknownChannel`, the timeline
containing exactly the points it contained before the call. -/
theorem failed_calls_atomic (now : ℕ) (s : Session) :
    (∀ op e, (applyOp now s op).1 = some e → (applyOp now s op).2 = s) ∧
    (∀ ch v ts, s.state = .Recording → findChannel s ch = none →
      addDataPoint s now ch v ts = (some .UnknownChannel, s)) := by
  constructor
  · intro op e h
    exact applyOp_err now s op e h
  · intro ch v ts h1 h2
    simp [addDataPoint, h1, h2]

/-- C7 witness: the theorem applied to a fresh recording session with an
empty registry — adding a point to the unregistered channel `"T1"` fails with
`UnknownChannel` and returns the session unchanged. -/
theorem failed_calls_atomic_witness :
    addDataPoint ⟨.Recording, [], ⟨[], []⟩, 0⟩ 5 "T1" 1 none =
      (some .UnknownChannel, ⟨.Recording, [], ⟨[], []⟩, 0⟩) :=
  (failed_calls_atomic 5 ⟨.Recording, [], ⟨[], []⟩, 0⟩).2 "T1" 1 none rfl rfl

/-- C8: `createChannel` fails with `DuplicateChannel` (returning the session
unchanged) whenever a channel of the same name is already registered in a
non-stopped session, and a registered channel — with its `(group, unit)`
pairing fixed at creation — is still found unchanged after any sequence of
further submitted calls: no redefinition, no deletion. -/
theorem channel_registration_fixed (now : ℕ) (s : Session) :
    (∀ n g u r c, s.state ≠ .Stopped → findChannel s n = some c →
      createChannel s n g u r = (some .DuplicateChannel, s)) ∧
    (∀ n c ops, findChannel s n = some c →
      findChannel (runOps now s ops) n = some c) := by
  constructor
  · intro n g u r c h1 h2
    simp [createChannel, h1, h2]
  · intro n c ops
    induction ops generalizing s with
    | nil => intro h; exact h
    | cons op rest ih =>
      intro h
      show findChannel (runOps now (applyOp now s op).2 rest) n = some c
      exact ih _ (findChannel_applyOp now s op n c h)

/-- C8 witness: the theorem applied to a session already holding channel
`"T1"` — re-registering `"T1"` with different group and unit fails with
`DuplicateChannel` and returns the session unchanged. -/
theorem channel_registration_fixed_witness :
    createChannel ⟨.Recording, [⟨"T1", "Temp", "C", false⟩], ⟨[], []⟩, 0⟩
        "T1" "G2" "V" true =
      (some .DuplicateChannel,
        ⟨.Recording, [⟨"T1", "Temp", "C", false⟩], ⟨[], []⟩, 0⟩) :=
  (channel_registration_fixed 0
      ⟨.Recording, [⟨"T1", "Temp", "C", false⟩], ⟨[], []⟩, 0⟩).1
    "T1" "G2" "V" true ⟨"T1", "Temp", "C", false⟩ (by decide) rfl

/-- C9: while the session is recording, the timeline only grows — after any
submitted call (in particular a successful `addDataPoint` or marker addition)
the previously stored data points and the previously stored markers each form
a prefix of the new lists, so every stored record is still present with its
value, timestamp, text and title unchanged. -/
theorem timeline_monotone (now : ℕ) (s : Session) (op : Op)
    (h : s.state = .Recording) :
    s.timeline.points <+: ((applyOp now s op).2).timeline.points ∧
    s.timeline.annots <+: ((applyOp now s op).2).timeline.annots := by
  cases op with
  | mkChannel n g u r =>
    by_cases h2 : (findChannel s n).isSome
    · simp [applyOp, createChannel, h, h2, List.prefix_refl]
    · simp [applyOp, createChannel, h, h2, List.prefix_refl]
  | mkDataPoint ch v ts =>
    by_cases h2 : (findChannel s ch).isNone
    · simp [applyOp, addDataPoint, h, h2, List.prefix_refl]
    · by_cases h3 : ts.getD now < s.sessionStart
      · simp [applyOp, addDataPoint, h, h2, h3, List.prefix_refl]
      · simp [applyOp, addDataPoint, h, h2, h3, List.prefix_append,
          List.prefix_refl]
  | mkAnnot txt ts ttl =>
    by_cases h3 : ts.getD now < s.sessionStart
    · simp [applyOp, addAnnot, h, h3, List.prefix_refl]
    · simp [applyOp, addAnnot, h, h3, List.prefix_append, List.prefix_refl]
  | stop => simp [applyOp, stopSession, List.prefix_refl]

/-- C9 witness: the theorem applied to a fresh recording session and a marker
addition — the previous (empty) point list is a prefix of the new one. -/
theorem timeline_monotone_witness :
    ([] : List DataPoint) <+:
      ((applyOp 5 (initialSession 0) (.mkAnnot "note" none none)).2).timeline.points :=
  (timeline_monotone 5 (initialSession 0) (.mkAnnot "note" none none) rfl).1

set_option maxRecDepth 1000000 in
/-- C10: every `addDataPoint` call issued by `writeArbitaryData` supplies the
group name alongside the channel name on that same call, and passes the value
as the decimal-string rendering — Python's `str` — of the running
`driveTemp`: `"18"` (an int), then the binary64 accumulation `"18.8"`,
`"19.6"`, `"20.400000000000002"`, `"21.200000000000003"`,
`"22.000000000000004"`, `"22.800000000000004"`, `"23.600000000000005"`,
`"24.400000000000006"`, `"25.200000000000006"`, and finally
`"26.000000000000007"` with the explicit timestamp; parsing each transmitted
string back at binary64 precision recovers exactly the running value the
statistics use (the mantissa/exponent pairs below are those successive
`driveTemp` doubles). -/
theorem writeArbitaryData_calls (ch g : String) (t : ℕ) :
    writeArbitaryData ch g t =
      [⟨ch, g, "18", none⟩, ⟨ch, g, "18.8", none⟩, ⟨ch, g, "19.6", none⟩,
        ⟨ch, g, "20.400000000000002", none⟩, ⟨ch, g, "21.200000000000003", none⟩,
        ⟨ch, g, "22.000000000000004", none⟩, ⟨ch, g, "22.800000000000004", none⟩,
        ⟨ch, g, "23.600000000000005", none⟩, ⟨ch, g, "24.400000000000006", none⟩,
        ⟨ch, g, "25.200000000000006", none⟩,
        ⟨ch, g, "26.000000000000007", some t⟩] ∧
    (∀ c ∈ writeArbitaryData ch g t, c.channelName = ch ∧ c.groupName = g) ∧
    (writeArbitaryData ch g t).map (fun c => c.valueStr) =
      (List.range 11).map (fun i => pyStr (driveTempAt i)) ∧
    (writeArbitaryData ch g t).map
        (fun c => (parseDecFrac c.valueStr).map (fun fr => roundF64 fr.1 fr.2)) =
      (List.range 11).map (fun i => some (pyF64 (driveTempAt i))) ∧
    (List.range 11).map (fun i => pyF64 (driveTempAt i)) =
      [(5066549580791808, 4), (5291729562160333, 4), (5516909543528858, 4),
        (5742089524897383, 4), (5967269506265908, 4), (6192449487634433, 4),
        (6417629469002958, 4), (6642809450371483, 4), (6867989431740008, 4),
        (7093169413108533, 4), (7318349394477058, 4)] := by
  have h1 : writeArbitaryData ch g t =
      [⟨ch, g, "18", none⟩, ⟨ch, g, "18.8", none⟩, ⟨ch, g, "19.6", none⟩,
        ⟨ch, g, "20.400000000000002", none⟩, ⟨ch, g, "21.200000000000003", none⟩,
        ⟨ch, g, "22.000000000000004", none⟩, ⟨ch, g, "22.800000000000004", none⟩,
        ⟨ch, g, "23.600000000000005", none⟩, ⟨ch, g, "24.400000000000006", none⟩,
        ⟨ch, g, "25.200000000000006", none⟩,
        ⟨ch, g, "26.000000000000007", some t⟩] := by
    rfl
  refine ⟨h1, ?_, ?_, ?_, ?_⟩
  · intro c hc
    rw [h1] at hc
    simp only [List.mem_cons, List.not_mem_nil, or_false] at hc
    rcases hc with rfl | rfl | rfl | rfl | rfl | rfl | rfl | rfl | rfl | rfl | rfl
    all_goals exact ⟨rfl, rfl⟩
  · rfl
  · rfl
  · decide

/-- C10 witness: the theorem applied at concrete arguments — the first call
issued by the driver carries both the channel name and the group name. -/
theorem writeArbitaryData_calls_witness :
    (⟨"T1", "Temp", "18", none⟩ : AddDataPointCall).channelName = "T1" ∧
    (⟨"T1", "Temp", "18", none⟩ : AddDataPointCall).groupName = "Temp" :=
  (writeArbitaryData_calls "T1" "Temp" 9).2.1 ⟨"T1", "Temp", "18", none⟩
    (by rw [(writeArbitaryData_calls "T1" "Temp" 9).1]; simp)

end QPS
